import Mathlib

/-!
Shallow embedding of the Reader page of LightYomi-Webui
(`src/pages/Reader.tsx`) and proofs about its chapter fetch / prefetch-cache /
navigation / scroll-position-persistence logic.

The embedding models:
* JavaScript string truthiness (`a || b`), number-to-string conversion
  (template literals, `String(n)`), `parseInt(s, 10)`, and IEEE-style
  division results (`NaN` / `Infinity`) as far as the Reader exercises them;
* the `Map` used as the prefetch cache and `localStorage` as association
  lists;
* the functions `fetchChapter`, `prefetchNextChapters`, `navigateToChapter`,
  `handleKeyDown`, `handleScroll`, `getPositionKey` and the error/content
  rendering branch of the component, as pure functions over explicit state,
  with the backend (`axios`) as an oracle parameter.
-/

namespace LightYomi

/-! ## JavaScript string primitives -/

/-- JS truthiness of a nullable string (`null`/`undefined` and `""` are
falsy). -/
def jsTruthy : Option String → Bool
  | some s => !s.isEmpty
  | none => false

/-- JS `a || b` on a nullable string with a string default. -/
def jsOrD (a : Option String) (b : String) : String :=
  match a with
  | some s => if s.isEmpty then b else s
  | none => b

/-- The character for a decimal digit (`0 ≤ d < 10`). -/
def digitChar (d : Nat) : Char := Char.ofNat (48 + d)

/-- Fuel-driven accumulator loop producing the decimal digits of `n`
(most significant first), prepended to `acc`.  Structural on the fuel so
that the kernel can evaluate it. -/
def natToCharsAux : Nat → Nat → List Char → List Char
  | 0, _, acc => acc
  | fuel + 1, n, acc =>
    if n < 10 then digitChar n :: acc
    else natToCharsAux fuel (n / 10) (digitChar (n % 10) :: acc)

/-- Decimal digit list of `n`, most significant first. -/
def natToChars (n : Nat) : List Char := natToCharsAux (n + 1) n []

/-- JS number-to-string conversion for a non-negative integer
(template literal `${'{'}n{'}'}`, `String(n)`). -/
def natToString (n : Nat) : String := String.mk (natToChars n)

/-- JS number-to-string conversion for an integer. -/
def intToString (z : Int) : String :=
  if z < 0 then "-" ++ natToString z.natAbs else natToString z.natAbs

/-- Is `c` a decimal digit character? -/
def isDigitChar (c : Char) : Bool := 48 ≤ c.toNat && c.toNat ≤ 57

/-- Accumulator step of decimal parsing. -/
def digitStep (a : Nat) (c : Char) : Nat := a * 10 + (c.toNat - 48)

/-- Consume the maximal leading run of decimal digits, returning the value
accumulated so far and the unconsumed remainder. -/
def parseDigits : List Char → Nat → Nat × List Char
  | [], a => (a, [])
  | c :: cs, a => if isDigitChar c then parseDigits cs (digitStep a c) else (a, c :: cs)

/-- Model of JS `parseInt(s, 10)`: optional sign followed by at least one
decimal digit; `none` models the `NaN` result.  (Leading-whitespace skipping
is not modelled; no caller in the Reader produces whitespace.) -/
def parseIntJs (s : String) : Option Int :=
  match s.data with
  | [] => none
  | c :: rest =>
    if c = '-' then
      match rest with
      | [] => none
      | d :: _ =>
        if isDigitChar d then some (- (Int.ofNat (parseDigits rest 0).1)) else none
    else if c = '+' then
      match rest with
      | [] => none
      | d :: _ =>
        if isDigitChar d then some (Int.ofNat (parseDigits rest 0).1) else none
    else if isDigitChar c then some (Int.ofNat (parseDigits (c :: rest) 0).1)
    else none

/-! ## Decimal round-trip lemmas -/

theorem digitChar_toNat {d : Nat} (h : d < 10) : (digitChar d).toNat = 48 + d := by
  interval_cases d <;> rfl

theorem isDigitChar_digitChar {d : Nat} (h : d < 10) : isDigitChar (digitChar d) = true := by
  interval_cases d <;> rfl

theorem natToCharsAux_fuel (n : Nat) :
    ∀ f₁ f₂ acc, n < f₁ → n < f₂ → natToCharsAux f₁ n acc = natToCharsAux f₂ n acc := by
  induction n using Nat.strong_induction_on with
  | _ n ih =>
    intro f₁ f₂ acc h₁ h₂
    match f₁, f₂ with
    | a + 1, b + 1 =>
      simp only [natToCharsAux]
      split
      · rfl
      · have hd : n / 10 < n := Nat.div_lt_self (by omega) (by omega)
        exact ih (n / 10) hd a b _ (by omega) (by omega)

theorem natToCharsAux_acc (n : Nat) :
    ∀ f acc, n < f → natToCharsAux f n acc = natToCharsAux f n [] ++ acc := by
  induction n using Nat.strong_induction_on with
  | _ n ih =>
    intro f acc h
    match f with
    | a + 1 =>
      simp only [natToCharsAux]
      split
      · rfl
      · have hd : n / 10 < n := Nat.div_lt_self (by omega) (by omega)
        have ha : n / 10 < a := by omega
        rw [ih (n / 10) hd a _ ha, ih (n / 10) hd a [digitChar (n % 10)] ha,
          List.append_assoc]
        rfl

theorem natToChars_lt {n : Nat} (h : n < 10) : natToChars n = [digitChar n] := by
  simp [natToChars, natToCharsAux, h]

theorem natToChars_ge {n : Nat} (h : 10 ≤ n) :
    natToChars n = natToChars (n / 10) ++ [digitChar (n % 10)] := by
  have hd : n / 10 < n := Nat.div_lt_self (by omega) (by omega)
  calc natToChars n = natToCharsAux (n + 1) n [] := rfl
    _ = natToCharsAux n (n / 10) [digitChar (n % 10)] := by
        simp only [natToCharsAux]
        split
        · omega
        · rfl
    _ = natToCharsAux (n / 10 + 1) (n / 10) [digitChar (n % 10)] :=
        natToCharsAux_fuel _ _ _ _ (by omega) (by omega)
    _ = natToChars (n / 10) ++ [digitChar (n % 10)] :=
        natToCharsAux_acc _ _ _ (by omega)

theorem natToChars_ne_nil (n : Nat) : natToChars n ≠ [] := by
  by_cases h : n < 10
  · rw [natToChars_lt h]; simp
  · rw [natToChars_ge (by omega)]; simp

theorem natToChars_all_digits (n : Nat) :
    ∀ c ∈ natToChars n, isDigitChar c = true := by
  induction n using Nat.strong_induction_on with
  | _ n ih =>
    intro c hc
    by_cases h : n < 10
    · rw [natToChars_lt h] at hc
      simp at hc
      subst hc
      exact isDigitChar_digitChar h
    · rw [natToChars_ge (by omega)] at hc
      have hd : n / 10 < n := Nat.div_lt_self (by omega) (by omega)
      rcases List.mem_append.mp hc with h1 | h2
      · exact ih (n / 10) hd c h1
      · simp at h2
        subst h2
        exact isDigitChar_digitChar (Nat.mod_lt _ (by omega))

theorem foldl_digitStep_natToChars (n : Nat) :
    ∀ a, (natToChars n).foldl digitStep a = a * 10 ^ (natToChars n).length + n := by
  induction n using Nat.strong_induction_on with
  | _ n ih =>
    intro a
    by_cases h : n < 10
    · rw [natToChars_lt h]
      simp [digitStep, digitChar_toNat h]
    · have hd : n / 10 < n := Nat.div_lt_self (by omega) (by omega)
      rw [natToChars_ge (by omega), List.foldl_append, List.length_append,
        ih (n / 10) hd a]
      simp only [List.foldl_cons, List.foldl_nil, List.length_cons, List.length_nil]
      rw [digitStep, digitChar_toNat (Nat.mod_lt _ (by omega))]
      have hmod : n / 10 * 10 + n % 10 = n := by omega
      rw [pow_succ]
      ring_nf
      omega

theorem charsVal_natToChars (n : Nat) : (natToChars n).foldl digitStep 0 = n := by
  rw [foldl_digitStep_natToChars]; simp

theorem parseDigits_all_digits :
    ∀ (l : List Char), (∀ c ∈ l, isDigitChar c = true) →
      ∀ a, parseDigits l a = (l.foldl digitStep a, [])
  | [], _, _ => rfl
  | c :: cs, h, a => by
    have hc : isDigitChar c = true := h c (by simp)
    simp only [parseDigits, hc, if_pos]
    rw [parseDigits_all_digits cs (fun d hd => h d (by simp [hd]))]
    rfl

theorem parseIntJs_natToString (n : Nat) : parseIntJs (natToString n) = some (n : Int) := by
  have hdata : (natToString n).data = natToChars n := rfl
  rcases hne : natToChars n with _ | ⟨c, rest⟩
  · exact absurd hne (natToChars_ne_nil n)
  · have hdig : isDigitChar c = true := by
      have := natToChars_all_digits n c (by rw [hne]; simp)
      exact this
    have hcm : c ≠ '-' := by
      intro hcc
      rw [hcc] at hdig
      exact absurd hdig (by decide)
    have hcp : c ≠ '+' := by
      intro hcc
      rw [hcc] at hdig
      exact absurd hdig (by decide)
    rw [parseIntJs, hdata, hne]
    simp only [hcm, hcp, if_neg, if_pos, hdig, ite_false, ite_true]
    rw [parseDigits_all_digits (c :: rest) (by rw [← hne]; exact natToChars_all_digits n) 0]
    rw [← hne, charsVal_natToChars]
    rfl

theorem natToString_injective : Function.Injective natToString := by
  intro a b h
  have hdata : natToChars a = natToChars b := by
    have := congrArg String.data h
    exact this
  have := congrArg (List.foldl digitStep 0) hdata
  rwa [charsVal_natToChars, charsVal_natToChars] at this

/-! ## JavaScript number semantics for the scroll computation

`window.scrollY / (document.body.scrollHeight - window.innerHeight)` is an
IEEE division: `0 / 0` is `NaN` and `x / 0` for `x ≠ 0` is a signed
infinity.  Finite values are modelled exactly by rationals. -/

/-- A JS number as produced by the scroll-percentage computation. -/
inductive JsNum where
  | finite (q : ℚ)
  | posInf
  | negInf
  | nan
deriving DecidableEq

/-- JS division of two finite numbers. -/
def jsDiv (x y : ℚ) : JsNum :=
  if y = 0 then
    if x = 0 then .nan else if 0 < x then .posInf else .negInf
  else .finite (x / y)

/-- JS multiplication of a number by a positive natural literal
(the `* 100` in the scroll handler). -/
def jsMulNat (a : JsNum) (k : ℕ) : JsNum :=
  match a with
  | .finite q => .finite (q * k)
  | .posInf => if k = 0 then .nan else .posInf
  | .negInf => if k = 0 then .nan else .negInf
  | .nan => .nan

/-- Result of JS `Math.round`: an integer or a special value. -/
inductive JsRounded where
  | int (z : ℤ)
  | posInf
  | negInf
  | nan
deriving DecidableEq

/-- JS `Math.round` (half-up, i.e. `⌊x + 1/2⌋`, which is what Mathlib's
`round` computes on `ℚ`); infinities and `NaN` pass through. -/
def mathRound : JsNum → JsRounded
  | .finite q => .int (round q)
  | .posInf => .posInf
  | .negInf => .negInf
  | .nan => .nan

/-- JS `String(x)` applied to a `Math.round` result. -/
def jsRoundedString : JsRounded → String
  | .int z => intToString z
  | .posInf => "Infinity"
  | .negInf => "-Infinity"
  | .nan => "NaN"

/-- JS `isNaN`. -/
def jsIsNaN : JsNum → Bool
  | .nan => true
  | _ => false

/-- JS `Number.isFinite`. -/
def jsIsFinite : JsNum → Bool
  | .finite _ => true
  | _ => false

/-! ## Data model (from `Reader.tsx`)

The TS `Chapter` interface has `id: number`, `name`, `path`, optional
`content`, optional `novelId`, optional `chapterNumber`.  The code only ever
uses `id` and `novelId` through JS truthiness checks (`if (cached.id)`,
`if (!currentChapter?.novelId)`), under which `0` and `undefined` behave
identically, so both are modelled as `ℕ` with `0` standing for the falsy
values. -/

structure Chapter where
  id : Nat
  name : String
  path : String
  content : Option String := none
  novelId : Nat := 0
  chapterNumber : Option Nat := none
deriving DecidableEq

/-- The `ChapterNavInfo` state (`prevChapter` / `nextChapter`). -/
structure ChapterNavInfo where
  prevChapter : Option Chapter := none
  nextChapter : Option Chapter := none
deriving DecidableEq

/-- The route parameters and query parameters consumed by the Reader:
`useParams()` gives `novelId` / `chapterId`; `searchParams.get` gives
`chapterPath` / `novelPath` / `pluginId` (each `string | null`). -/
structure Route where
  novelId : Option String := none
  chapterId : Option String := none
  qChapterPath : Option String := none
  qNovelPath : Option String := none
  qPluginId : Option String := none
deriving DecidableEq

/-- A content-fetch request to `/api/novel/chapter`, by id
(`?chapterId=...`) or by path (`?path=...&pluginId=...`). -/
inductive FetchRequest where
  | byId (chapterId : String)
  | byPath (pluginId : String) (chapterPath : String)
deriving DecidableEq

/-- The error object an axios rejection carries:
`e.response?.data?.message` and `e.message`. -/
structure AxiosError where
  backendMessage : Option String := none
  message : Option String := none
deriving DecidableEq

/-- The prefetch cache (`prefetchedChapters`, a JS `Map<string, Chapter>`),
modelled as an insertion-ordered association list with unique keys. -/
abbrev Cache := List (String × Chapter)

/-- Model of JS `Map.get`. -/
def mapGet (m : Cache) (k : String) : Option Chapter :=
  (m.find? (fun p => p.1 = k)).map (fun p => p.2)

/-- Model of JS `Map.has`. -/
def mapHas (m : Cache) (k : String) : Bool :=
  (mapGet m k).isSome

/-- Model of JS `Map.set` (replace in place if the key exists, else append). -/
def mapSet (m : Cache) (k : String) (v : Chapter) : Cache :=
  if mapHas m k then m.map (fun p => if p.1 = k then (k, v) else p)
  else m ++ [(k, v)]

/-- Model of JS `Map.delete`. -/
def mapDelete (m : Cache) (k : String) : Cache :=
  m.filter (fun p => p.1 ≠ k)

/-- Model of `localStorage`, a synchronous string-keyed store. -/
abbrev Store := List (String × String)

/-- Model of `localStorage.getItem` (`none` models `null`). -/
def lsGet (st : Store) (k : String) : Option String :=
  (st.find? (fun p => p.1 = k)).map (fun p => p.2)

/-- Model of `localStorage.setItem`. -/
def lsSet (st : Store) (k : String) (v : String) : Store :=
  if (lsGet st k).isSome then st.map (fun p => if p.1 = k then (k, v) else p)
  else st ++ [(k, v)]

/-- The backend Content API as an oracle: `GET /api/novel/chapter` (by id or
by path) and `GET /api/novel/chapters?novelId=...`.  An `Except.error`
models an axios rejection. -/
structure Net where
  chapterFetch : FetchRequest → Except AxiosError Chapter
  chapterList : Nat → Except AxiosError (List Chapter)

/-! ## Reader operations -/

/-- Storage key for the reading position
(`const getPositionKey = (chapterId) => ...`); the numeric callers pass the
JS string of the number. -/
def getPositionKey (chapterId : String) : String :=
  "reading_position_" ++ chapterId

/-- The locator resolution at the top of `fetchChapter`: `url` and
`cacheKey` are set from `chapterId` if truthy, else from
`qChapterPath && qPluginId`; `none` is the `!url` (missing locator) case. -/
def requestOf (r : Route) : Option FetchRequest :=
  if jsTruthy r.chapterId then some (.byId (jsOrD r.chapterId ""))
  else if jsTruthy r.qChapterPath && jsTruthy r.qPluginId then
    some (.byPath (jsOrD r.qPluginId "") (jsOrD r.qChapterPath ""))
  else none

/-- The cache key `fetchChapter` computes for a request:
`id:<chapterId>` or `path:<pluginId>:<chapterPath>`. -/
def cacheKeyOfReq : FetchRequest → String
  | .byId chapterId => "id:" ++ chapterId
  | .byPath pluginId chapterPath => "path:" ++ pluginId ++ ":" ++ chapterPath

/-- The error message the catch branch stores:
`e.response?.data?.message || e.message || 'Failed to load chapter'`. -/
def displayedError (e : AxiosError) : String :=
  jsOrD e.backendMessage (jsOrD e.message "Failed to load chapter")

/-- The prefetch loop body of `prefetchNextChapters`: for each chapter, if
its key `id:<ch.id>` is not in the cache, fetch it and store the result
(failures are swallowed).  Returns the final cache, the requests issued,
and the keys actually inserted. -/
def prefetchFold (net : Net) : List Chapter → Cache → Cache × List FetchRequest × List String
  | [], m => (m, [], [])
  | ch :: rest, m =>
    let key := "id:" ++ natToString ch.id
    if mapHas m key then prefetchFold net rest m
    else
      let req : FetchRequest := .byId (natToString ch.id)
      match net.chapterFetch req with
      | .ok data =>
        let r := prefetchFold net rest (mapSet m key data)
        (r.1, req :: r.2.1, key :: r.2.2)
      | .error _ =>
        let r := prefetchFold net rest m
        (r.1, req :: r.2.1, r.2.2)

/-- Result of one `prefetchNextChapters` run: the nav info it set (if it
reached `setNavInfo`), the cache afterwards, the prefetch requests issued
and the cache keys inserted. -/
structure PrefetchResult where
  navInfo : Option ChapterNavInfo
  cache : Cache
  requests : List FetchRequest
  insertedKeys : List String
deriving DecidableEq

/-- Model of `prefetchNextChapters`: guard on `novelId`, fetch the chapter
list, locate the current chapter by id (`findIndex`), derive
`prevChapter` / `nextChapter`, and prefetch `[nextChapter,
chapters[currentIndex + 2]].filter(Boolean)`. -/
def prefetchNextChapters (net : Net) (currentChapter : Chapter) (cache : Cache) :
    PrefetchResult :=
  if currentChapter.novelId = 0 then ⟨none, cache, [], []⟩
  else
    match net.chapterList currentChapter.novelId with
    | .error _ => ⟨none, cache, [], []⟩
    | .ok chapters =>
      match chapters.findIdx? (fun c => c.id == currentChapter.id) with
      | none => ⟨none, cache, [], []⟩
      | some currentIndex =>
        let prevChapter := if 0 < currentIndex then chapters[currentIndex - 1]? else none
        let nextChapter :=
          if currentIndex < chapters.length - 1 then chapters[currentIndex + 1]? else none
        let toPrefetch := List.filterMap id [nextChapter, chapters[currentIndex + 2]?]
        let folded := prefetchFold net toPrefetch cache
        ⟨some ⟨prevChapter, nextChapter⟩, folded.1, folded.2.1, folded.2.2⟩

/-- Terminal state of one `fetchChapter` run. -/
inductive LoadResult where
  | missingLocator
  | loaded (ch : Chapter) (fromCache : Bool)
  | failed (message : String)
deriving DecidableEq

/-- Observable outcome of one `fetchChapter` run: the load result, the
prefetch cache afterwards, the content-fetch requests issued for the
chapter being displayed (`mainRequests`), the content-fetch requests issued
by the prefetch loop, the keys the prefetch loop inserted, the history
notifications posted, and the nav info set (if any). -/
structure FetchOutcome where
  result : LoadResult
  cache : Cache
  mainRequests : List FetchRequest
  prefetchRequests : List FetchRequest
  insertedKeys : List String
  historyPosts : List Nat
  navInfo : Option ChapterNavInfo
deriving DecidableEq

/-- Model of `fetchChapter`: resolve the locator, consult the prefetch
cache (removing a hit), otherwise fetch from the network; on success post
history (if `id` truthy) and run `prefetchNextChapters`; on rejection store
the displayed error message. -/
def fetchChapter (net : Net) (r : Route) (cache : Cache) : FetchOutcome :=
  match requestOf r with
  | none =>
    { result := .missingLocator, cache := cache, mainRequests := [],
      prefetchRequests := [], insertedKeys := [], historyPosts := [], navInfo := none }
  | some req =>
    let cacheKey := cacheKeyOfReq req
    match mapGet cache cacheKey with
    | some cached =>
      let pf := prefetchNextChapters net cached (mapDelete cache cacheKey)
      { result := .loaded cached true, cache := pf.cache, mainRequests := [],
        prefetchRequests := pf.requests, insertedKeys := pf.insertedKeys,
        historyPosts := if cached.id ≠ 0 then [cached.id] else [],
        navInfo := pf.navInfo }
    | none =>
      match net.chapterFetch req with
      | .error e =>
        { result := .failed (displayedError e), cache := cache, mainRequests := [req],
          prefetchRequests := [], insertedKeys := [], historyPosts := [], navInfo := none }
      | .ok chapterData =>
        let pf := prefetchNextChapters net chapterData cache
        { result := .loaded chapterData false, cache := pf.cache, mainRequests := [req],
          prefetchRequests := pf.requests, insertedKeys := pf.insertedKeys,
          historyPosts := if chapterData.id ≠ 0 then [chapterData.id] else [],
          navInfo := pf.navInfo }

/-- The retry control of the error view; its click handler is
`fetchChapter` itself (re-running resolve-and-load with the unchanged
route). -/
inductive RetryTarget where
  | refetch
deriving DecidableEq

/-- The main-content branch of the JSX: spinner while loading, error text
plus Retry button when `error` is set, otherwise the chapter HTML. -/
inductive View where
  | spinner
  | errorView (message : String) (retry : Option RetryTarget)
  | contentView (html : String)
deriving DecidableEq

/-- Model of the `loading ? ... : error ? ... : ...` render branch.  The
error branch always renders the Retry button wired to `fetchChapter`; the
content branch falls back to `'No content found.'` when
`chapter?.content` is falsy. -/
def render (loading : Bool) (error : Option String) (chapter : Option Chapter) : View :=
  if loading then .spinner
  else
    match error with
    | some msg => .errorView msg (some .refetch)
    | none =>
      .contentView
        (match chapter with
         | some ch =>
           match ch.content with
           | some html => if html.isEmpty then "No content found." else html
           | none => "No content found."
         | none => "No content found.")

/-- The `error` state after a completed `fetchChapter` run. -/
def errorOf : LoadResult → Option String
  | .missingLocator => some "Missing chapter information"
  | .failed msg => some msg
  | .loaded _ _ => none

/-- The `chapter` state set by a completed `fetchChapter` run. -/
def chapterOf : LoadResult → Option Chapter
  | .loaded ch _ => some ch
  | _ => none

/-- The view rendered once a `fetchChapter` run has completed
(`loading` is back to `false`). -/
def viewAfterLoad (out : FetchOutcome) : View :=
  render false (errorOf out.result) (chapterOf out.result)

/-- The retry control of a view, if any. -/
def retryTargetOf : View → Option RetryTarget
  | .errorView _ retry => retry
  | _ => none

/-- A route transition produced by `navigateToChapter`. -/
inductive NavTarget where
  | idRoute (novelId : String) (chapterId : Nat)
  | pathRoute (pluginId : String) (novelPath : String) (chapterPath : String)
deriving DecidableEq

/-- Model of `navigateToChapter`: id-based route when the route has a
truthy `novelId` and the target a truthy `id`, else path-based route when
`qPluginId` and the target path are truthy, else nothing. -/
def navigateToChapter (r : Route) (targetChapter : Chapter) : Option NavTarget :=
  if jsTruthy r.novelId && targetChapter.id != 0 then
    some (.idRoute (jsOrD r.novelId "") targetChapter.id)
  else if jsTruthy r.qPluginId && !targetChapter.path.isEmpty then
    some (.pathRoute (jsOrD r.qPluginId "") (jsOrD r.qNovelPath "") targetChapter.path)
  else none

/-- The kind of element a key event targets
(`e.target instanceof HTMLInputElement / HTMLTextAreaElement`). -/
inductive KeyTarget where
  | inputEl
  | textareaEl
  | otherEl
deriving DecidableEq

/-- The action `handleKeyDown` takes. -/
inductive KeyAction where
  | navigate (targetChapter : Chapter)
  | back
  | toggleOverlay
  | noAction
deriving DecidableEq

/-- Model of the keyboard listener `handleKeyDown`: ignore events targeting
an input or textarea, else dispatch on the key. -/
def handleKeyDown (navInfo : ChapterNavInfo) (target : KeyTarget) (key : String) :
    KeyAction :=
  if target = .inputEl ∨ target = .textareaEl then .noAction
  else if key = "ArrowLeft" then
    match navInfo.prevChapter with
    | some c => .navigate c
    | none => .noAction
  else if key = "ArrowRight" then
    match navInfo.nextChapter with
    | some c => .navigate c
    | none => .noAction
  else if key = "Escape" then .back
  else if key = " " then .toggleOverlay
  else .noAction

/-- A scroll event: `Date.now()`, `window.scrollY`,
`document.body.scrollHeight`, `window.innerHeight`. -/
structure ScrollEvent where
  time : Nat
  scrollY : ℚ
  scrollHeight : ℚ
  innerHeight : ℚ

/-- The mutable state the scroll handler touches: the throttle timestamp
`lastScrollSave` and `localStorage`. -/
structure ScrollState where
  lastScrollSave : Nat
  store : Store

/-- Model of `handleScroll` for the active chapter params: throttle to one
pass per 1000 ms, compute the scroll percentage, and write
`String(Math.round(percent * 100))` under the position key unless the key
is falsy or the percentage `isNaN`.  Returns the new state and the write
time, if a write happened. -/
def handleScroll (chapterId qChapterPath : Option String) (ev : ScrollEvent)
    (st : ScrollState) : ScrollState × Option Nat :=
  if ev.time - st.lastScrollSave < 1000 then (st, none)
  else
    let scrollPercent := jsDiv ev.scrollY (ev.scrollHeight - ev.innerHeight)
    let key := getPositionKey (jsOrD chapterId (jsOrD qChapterPath ""))
    if !key.isEmpty && !jsIsNaN scrollPercent then
      ({ lastScrollSave := ev.time,
         store := lsSet st.store key (jsRoundedString (mathRound (jsMulNat scrollPercent 100))) },
       some ev.time)
    else ({ lastScrollSave := ev.time, store := st.store }, none)

/-- Run `handleScroll` over a sequence of scroll events, collecting the
times at which a position write happened. -/
def processScroll (chapterId qChapterPath : Option String) :
    List ScrollEvent → ScrollState → ScrollState × List Nat
  | [], st => (st, [])
  | ev :: evs, st =>
    let step := handleScroll chapterId qChapterPath ev st
    let rest := processScroll chapterId qChapterPath evs step.1
    (rest.1, step.2.toList ++ rest.2)

/-- The key `handleScroll` saves under: derived from the route params
`chapterId || qChapterPath || ''`. -/
def scrollSaveKey (chapterId qChapterPath : Option String) : String :=
  getPositionKey (jsOrD chapterId (jsOrD qChapterPath ""))

/-- The key the restore effect reads: derived from the fetched chapter,
`chapter.id || qChapterPath || ''` (a truthy numeric `id` wins). -/
def scrollRestoreKey (chapter : Chapter) (qChapterPath : Option String) : String :=
  getPositionKey (if chapter.id ≠ 0 then natToString chapter.id else jsOrD qChapterPath "")

/-- The percentage the restore effect parses back:
`savedPosition && parseInt(savedPosition, 10)`. -/
def readBackPercent (st : Store) (key : String) : Option Int :=
  match lsGet st key with
  | some saved => if saved.isEmpty then none else parseIntJs saved
  | none => none

/-! ## Lemmas about the cache and store models -/

theorem mapGet_mapDelete_self (m : Cache) (k : String) :
    mapGet (mapDelete m k) k = none := by
  induction m with
  | nil => rfl
  | cons p t ih =>
    by_cases h : p.1 = k
    · simp only [mapDelete, List.filter_cons, h, decide_not]
      simpa [mapDelete] using ih
    · set_option linter.unnecessarySimpa false in
      simpa [mapDelete, mapGet, List.filter_cons, List.find?_cons, h] using ih

theorem mapGet_mapDelete_ne (m : Cache) {k k' : String} (h : k' ≠ k) :
    mapGet (mapDelete m k) k' = mapGet m k' := by
  induction m with
  | nil => rfl
  | cons p t ih =>
    by_cases hp : p.1 = k
    · have hp' : ¬ p.1 = k' := by rw [hp]; exact fun hc => h hc.symm
      have hk' : ¬ k = k' := fun hc => h hc.symm
      simpa [mapDelete, mapGet, List.filter_cons, List.find?_cons, hp, hp', hk'] using ih
    · by_cases hpk : p.1 = k'
      · simp [mapDelete, mapGet, List.filter_cons, List.find?_cons, hp, hpk, h]
      · simpa [mapDelete, mapGet, List.filter_cons, List.find?_cons, hp, hpk, h] using ih

theorem mapHas_mapDelete {m : Cache} {k k' : String}
    (h : mapHas (mapDelete m k) k' = true) : mapHas m k' = true := by
  by_cases hk : k' = k
  · subst hk
    rw [mapHas, mapGet_mapDelete_self] at h
    simp at h
  · rwa [mapHas, mapGet_mapDelete_ne m hk] at h

theorem mapGet_mapReplace_self {k : String} {v : Chapter} :
    ∀ (m : Cache), mapHas m k = true →
      mapGet (m.map (fun p => if p.1 = k then (k, v) else p)) k = some v
  | [], h => by simp [mapHas, mapGet] at h
  | p :: t, h => by
    by_cases hp : p.1 = k
    · simp [mapGet, List.find?_cons, hp]
    · have ht : mapHas t k = true := by
        simpa [mapHas, mapGet, List.find?_cons, hp] using h
      simpa [mapGet, List.find?_cons, hp] using mapGet_mapReplace_self t ht

theorem mapGet_mapReplace_ne {k k' : String} {v : Chapter} (h : k' ≠ k) :
    ∀ (m : Cache),
      mapGet (m.map (fun p => if p.1 = k then (k, v) else p)) k' = mapGet m k'
  | [] => rfl
  | p :: t => by
    by_cases hp : p.1 = k
    · have hp' : ¬ p.1 = k' := by rw [hp]; exact fun hc => h hc.symm
      have hk' : ¬ k = k' := fun hc => h hc.symm
      simpa [mapGet, List.find?_cons, hp, hp', hk'] using mapGet_mapReplace_ne h t
    · by_cases hpk : p.1 = k'
      · simp [mapGet, List.find?_cons, hp, hpk, h]
      · simpa [mapGet, List.find?_cons, hp, hpk, h] using mapGet_mapReplace_ne h t

theorem find?_eq_none_of_not_has {m : Cache} {k : String} (h : mapHas m k = false) :
    m.find? (fun p => p.1 = k) = none := by
  cases hf : m.find? (fun p => p.1 = k) with
  | none => rfl
  | some p => rw [mapHas, mapGet, hf] at h; simp at h

theorem mapGet_mapSet_self (m : Cache) (k : String) (v : Chapter) :
    mapGet (mapSet m k v) k = some v := by
  rw [mapSet]
  by_cases h : mapHas m k
  · rw [if_pos h]
    exact mapGet_mapReplace_self m h
  · rw [if_neg h]
    rw [mapGet, List.find?_append, find?_eq_none_of_not_has (Bool.eq_false_iff.mpr h)]
    simp [List.find?_cons]

theorem mapGet_mapSet_ne (m : Cache) {k k' : String} (v : Chapter) (h : k' ≠ k) :
    mapGet (mapSet m k v) k' = mapGet m k' := by
  rw [mapSet]
  by_cases hh : mapHas m k
  · rw [if_pos hh]
    exact mapGet_mapReplace_ne h m
  · rw [if_neg hh]
    have hk' : ¬ k = k' := fun hc => h hc.symm
    rw [mapGet, List.find?_append]
    cases hf : m.find? (fun p => p.1 = k') with
    | some p => simp [mapGet, hf]
    | none => simp [mapGet, hf, List.find?_cons, hk']

theorem mapHas_mapSet_ne (m : Cache) {k k' : String} (v : Chapter) (h : k' ≠ k) :
    mapHas (mapSet m k v) k' = mapHas m k' := by
  rw [mapHas, mapHas, mapGet_mapSet_ne m v h]

theorem mapHas_mapSet_imp {m : Cache} {k k' : String} {v : Chapter}
    (h : mapHas (mapSet m k v) k' = true) : k' = k ∨ mapHas m k' = true := by
  by_cases hk : k' = k
  · exact Or.inl hk
  · right
    rwa [mapHas_mapSet_ne m v hk] at h

theorem lsGet_lsSet_self (st : Store) (k : String) (v : String) :
    lsGet (lsSet st k v) k = some v := by
  rw [lsSet]
  by_cases h : (lsGet st k).isSome
  · rw [if_pos h]
    induction st with
    | nil => simp [lsGet] at h
    | cons p t ih =>
      by_cases hp : p.1 = k
      · simp [lsGet, List.find?_cons, hp]
      · have ht : (lsGet t k).isSome := by
          simpa [lsGet, List.find?_cons, hp] using h
        simpa [lsGet, List.find?_cons, hp] using ih ht
  · rw [if_neg h]
    have hf : st.find? (fun p => p.1 = k) = none := by
      cases hf : st.find? (fun p => p.1 = k) with
      | none => rfl
      | some p => rw [lsGet, hf] at h; simp at h
    rw [lsGet, List.find?_append, hf]
    simp [List.find?_cons]


/-! ## String key lemmas -/

theorem string_append_left_cancel {p a b : String} (h : p ++ a = p ++ b) : a = b := by
  have hd := congrArg String.data h
  rw [String.data_append, String.data_append] at hd
  have hab := List.append_cancel_left hd
  cases a
  cases b
  exact congrArg String.mk hab

theorem pathKey_ne_idKey (p c s : String) : "path:" ++ p ++ ":" ++ c ≠ "id:" ++ s := by
  intro h
  have hd := congrArg String.data h
  simp only [String.data_append] at hd
  simp at hd

theorem getPositionKey_ne_of_ne {a b : String} (h : a ≠ b) :
    getPositionKey a ≠ getPositionKey b :=
  fun hc => h (string_append_left_cancel hc)

theorem getPositionKey_not_empty (s : String) : (getPositionKey s).isEmpty = false := by
  rw [Bool.eq_false_iff]
  intro h
  rw [String.isEmpty_iff] at h
  have hd := congrArg String.data h
  rw [getPositionKey, String.data_append] at hd
  simp only [List.append_eq_nil] at hd
  have : "reading_position_".data = [] := by
    simpa using hd.1
  exact absurd this (by decide)

/-! ## Prefetch loop lemmas -/

theorem prefetchFold_get_of_not_inserted (net : Net) :
    ∀ (l : List Chapter) (m : Cache) (k : String),
      k ∉ (prefetchFold net l m).2.2 →
      mapGet (prefetchFold net l m).1 k = mapGet m k := by
  intro l
  induction l with
  | nil => intro m k _; rfl
  | cons ch rest ih =>
    intro m k h
    simp only [prefetchFold] at h ⊢
    by_cases hm : mapHas m ("id:" ++ natToString ch.id) = true
    · rw [if_pos hm] at h ⊢
      exact ih m k h
    · rw [if_neg hm] at h ⊢
      cases hf : net.chapterFetch (.byId (natToString ch.id)) with
      | ok data =>
        rw [hf] at h
        have h2 : k ∉ ("id:" ++ natToString ch.id) ::
            (prefetchFold net rest (mapSet m ("id:" ++ natToString ch.id) data)).2.2 := h
        simp only [List.mem_cons, not_or] at h2
        show mapGet (prefetchFold net rest (mapSet m ("id:" ++ natToString ch.id) data)).1 k =
          mapGet m k
        rw [ih (mapSet m ("id:" ++ natToString ch.id) data) k h2.2]
        exact mapGet_mapSet_ne m data h2.1
      | error e =>
        rw [hf] at h
        show mapGet (prefetchFold net rest m).1 k = mapGet m k
        exact ih m k (fun hmem => h hmem)

theorem prefetchFold_has_imp (net : Net) :
    ∀ (l : List Chapter) (m : Cache) (k : String),
      mapHas (prefetchFold net l m).1 k = true →
      mapHas m k = true ∨ ∃ s, k = "id:" ++ s := by
  intro l
  induction l with
  | nil => intro m k h; exact Or.inl h
  | cons ch rest ih =>
    intro m k h
    simp only [prefetchFold] at h
    by_cases hm : mapHas m ("id:" ++ natToString ch.id) = true
    · rw [if_pos hm] at h
      exact ih m k h
    · rw [if_neg hm] at h
      cases hf : net.chapterFetch (.byId (natToString ch.id)) with
      | ok data =>
        rw [hf] at h
        have h0 : mapHas (prefetchFold net rest
            (mapSet m ("id:" ++ natToString ch.id) data)).1 k = true := h
        rcases ih (mapSet m ("id:" ++ natToString ch.id) data) k h0 with h1 | h2
        · rcases mapHas_mapSet_imp h1 with h3 | h4
          · exact Or.inr ⟨natToString ch.id, h3⟩
          · exact Or.inl h4
        · exact Or.inr h2
      | error e =>
        rw [hf] at h
        have h0 : mapHas (prefetchFold net rest m).1 k = true := h
        exact ih m k h0

theorem prefetchFold_spec (net : Net) (f : Chapter → Chapter) :
    ∀ (l : List Chapter) (m : Cache),
      (l.map (fun c => "id:" ++ natToString c.id)).Nodup →
      (∀ c ∈ l, net.chapterFetch (.byId (natToString c.id)) = .ok (f c)) →
      (prefetchFold net l m).2.1 =
          (l.filter (fun c => !mapHas m ("id:" ++ natToString c.id))).map
            (fun c => FetchRequest.byId (natToString c.id)) ∧
        (prefetchFold net l m).2.2 =
          (l.filter (fun c => !mapHas m ("id:" ++ natToString c.id))).map
            (fun c => "id:" ++ natToString c.id) ∧
        (∀ c ∈ l.filter (fun c => !mapHas m ("id:" ++ natToString c.id)),
          mapGet (prefetchFold net l m).1 ("id:" ++ natToString c.id) = some (f c)) ∧
        (∀ k, k ∉ (l.filter (fun c => !mapHas m ("id:" ++ natToString c.id))).map
              (fun c => "id:" ++ natToString c.id) →
          mapGet (prefetchFold net l m).1 k = mapGet m k) := by
  intro l
  induction l with
  | nil =>
    intro m _ _
    exact ⟨rfl, rfl, by simp, fun k _ => rfl⟩
  | cons ch rest ih =>
    intro m hnd hok
    have hkey_notin : ("id:" ++ natToString ch.id) ∉
        rest.map (fun c => "id:" ++ natToString c.id) := by
      rw [List.map_cons, List.nodup_cons] at hnd
      exact hnd.1
    have hnd' : (rest.map (fun c => "id:" ++ natToString c.id)).Nodup := by
      rw [List.map_cons, List.nodup_cons] at hnd
      exact hnd.2
    have hok' : ∀ c ∈ rest, net.chapterFetch (.byId (natToString c.id)) = .ok (f c) :=
      fun c hc => hok c (List.mem_cons_of_mem _ hc)
    simp only [prefetchFold]
    by_cases hm : mapHas m ("id:" ++ natToString ch.id) = true
    · rw [if_pos hm, List.filter_cons_of_neg (by simp [hm])]
      exact ih m hnd' hok'
    · rw [if_neg hm, hok ch (List.mem_cons_self _ _),
        List.filter_cons_of_pos (by simp [Bool.eq_false_iff.mpr hm])]
      have hfilter : rest.filter
            (fun c => !mapHas (mapSet m ("id:" ++ natToString ch.id) (f ch))
              ("id:" ++ natToString c.id)) =
          rest.filter (fun c => !mapHas m ("id:" ++ natToString c.id)) := by
        apply List.filter_congr
        intro c hc
        have hne : ("id:" ++ natToString c.id) ≠ ("id:" ++ natToString ch.id) := by
          intro hcc
          exact hkey_notin (hcc ▸ List.mem_map_of_mem _ hc)
        rw [mapHas_mapSet_ne m (f ch) hne]
      obtain ⟨ih1, ih2, ih3, ih4⟩ :=
        ih (mapSet m ("id:" ++ natToString ch.id) (f ch)) hnd' hok'
      rw [hfilter] at ih1 ih2 ih3 ih4
      have hsub : ∀ k, k ∈ (rest.filter
            (fun c => !mapHas m ("id:" ++ natToString c.id))).map
            (fun c => "id:" ++ natToString c.id) →
          k ∈ rest.map (fun c => "id:" ++ natToString c.id) := by
        intro k hk
        rcases List.mem_map.mp hk with ⟨c, hc, hck⟩
        exact hck ▸ List.mem_map_of_mem _ (List.mem_of_mem_filter hc)
      refine ⟨by simp [ih1], by simp [ih2], ?_, ?_⟩
      · intro c hc
        rcases List.mem_cons.mp hc with hch | hcrest
        · subst hch
          rw [ih4 ("id:" ++ natToString c.id) (fun hk => hkey_notin (hsub _ hk))]
          exact mapGet_mapSet_self m _ (f c)
        · exact ih3 c hcrest
      · intro k hk
        rw [List.map_cons, List.mem_cons, not_or] at hk
        rw [ih4 k hk.2]
        exact mapGet_mapSet_ne m (f ch) hk.1

/-! ## Scroll throttle lemmas -/

theorem handleScroll_spec (chapterId qChapterPath : Option String) (ev : ScrollEvent)
    (st : ScrollState) :
    (ev.time - st.lastScrollSave < 1000 ∧
        handleScroll chapterId qChapterPath ev st = (st, none)) ∨
      (st.lastScrollSave + 1000 ≤ ev.time ∧
        (handleScroll chapterId qChapterPath ev st).1.lastScrollSave = ev.time ∧
        ((handleScroll chapterId qChapterPath ev st).2 = none ∨
          (handleScroll chapterId qChapterPath ev st).2 = some ev.time)) := by
  simp only [handleScroll]
  by_cases h : ev.time - st.lastScrollSave < 1000
  · exact Or.inl ⟨h, by rw [if_pos h]⟩
  · rw [if_neg h]
    refine Or.inr ⟨by omega, ?_⟩
    split
    · exact ⟨rfl, Or.inr rfl⟩
    · exact ⟨rfl, Or.inl rfl⟩

theorem processScroll_writes (chapterId qChapterPath : Option String) :
    ∀ (evs : List ScrollEvent) (st : ScrollState),
      (processScroll chapterId qChapterPath evs st).2.Pairwise
          (fun a b => a + 1000 ≤ b) ∧
        ∀ w ∈ (processScroll chapterId qChapterPath evs st).2,
          st.lastScrollSave + 1000 ≤ w := by
  intro evs
  induction evs with
  | nil => exact fun st => ⟨List.Pairwise.nil, by simp [processScroll]⟩
  | cons ev rest ih =>
    intro st
    rcases handleScroll_spec chapterId qChapterPath ev st with ⟨_, heq⟩ | ⟨hle, hlast, hw⟩
    · simp only [processScroll, heq]
      simpa using ih st
    · obtain ⟨ihp, ihb⟩ := ih (handleScroll chapterId qChapterPath ev st).1
      rw [hlast] at ihb
      rcases hw with hw | hw
      · constructor
        · simp only [processScroll, hw]
          simpa using ihp
        · intro w hwmem
          simp only [processScroll, hw, Option.toList_none, List.nil_append] at hwmem
          have := ihb w hwmem
          omega
      · constructor
        · simp only [processScroll, hw, Option.toList_some, List.singleton_append]
          exact List.pairwise_cons.mpr ⟨fun b hb => ihb b hb, ihp⟩
        · intro w hwmem
          simp only [processScroll, hw, Option.toList_some, List.singleton_append,
            List.mem_cons] at hwmem
          rcases hwmem with hwe | hwr
          · omega
          · have := ihb w hwr
            omega

theorem pairwise_sep_filter_window (l : List Nat)
    (hl : l.Pairwise (fun a b => a + 1000 ≤ b)) (t : Nat) :
    (l.filter (fun w => decide (t ≤ w) && decide (w < t + 1000))).length ≤ 1 := by
  have hf : (l.filter (fun w => decide (t ≤ w) && decide (w < t + 1000))).Pairwise
      (fun a b => a + 1000 ≤ b) := List.Pairwise.sublist (List.filter_sublist l) hl
  rcases hfl : l.filter (fun w => decide (t ≤ w) && decide (w < t + 1000)) with
    _ | ⟨a, _ | ⟨b, rest⟩⟩
  · simp
  · simp
  · exfalso
    rw [hfl] at hf
    have hab : a + 1000 ≤ b := (List.pairwise_cons.mp hf).1 b (by simp)
    have ha : (decide (t ≤ a) && decide (a < t + 1000)) = true :=
      List.of_mem_filter (l := l) (p := fun w => decide (t ≤ w) && decide (w < t + 1000))
        (by rw [hfl]; simp)
    have hb : (decide (t ≤ b) && decide (b < t + 1000)) = true :=
      List.of_mem_filter (l := l) (p := fun w => decide (t ≤ w) && decide (w < t + 1000))
        (by rw [hfl]; simp)
    simp only [Bool.and_eq_true, decide_eq_true_eq] at ha hb
    omega


/-! ## Wrapper lemmas on the Reader operations -/

instance : DecidableEq (Except AxiosError Chapter) := fun a b =>
  match a, b with
  | .error x, .error y =>
    if h : x = y then .isTrue (congrArg Except.error h)
    else .isFalse fun hc => h (Except.error.inj hc)
  | .ok x, .ok y =>
    if h : x = y then .isTrue (congrArg Except.ok h)
    else .isFalse fun hc => h (Except.ok.inj hc)
  | .error _, .ok _ => .isFalse fun hc => Except.noConfusion hc
  | .ok _, .error _ => .isFalse fun hc => Except.noConfusion hc

theorem natToString_not_empty (n : Nat) : (natToString n).isEmpty = false := by
  rw [Bool.eq_false_iff]
  intro h
  rw [String.isEmpty_iff] at h
  exact natToChars_ne_nil n (congrArg String.data h)

theorem idKey_injective {a b : Nat} (h : "id:" ++ natToString a = "id:" ++ natToString b) :
    a = b :=
  natToString_injective (string_append_left_cancel h)

theorem jsOrD_falsy {a : Option String} (h : jsTruthy a = false) (b : String) :
    jsOrD a b = b := by
  cases a with
  | none => rfl
  | some s =>
    rw [jsTruthy, Bool.not_eq_false'] at h
    rw [jsOrD, if_pos h]

theorem filterMap_id_pair (a b : Option Chapter) :
    List.filterMap id [a, b] = a.toList ++ b.toList := by
  cases a <;> cases b <;> rfl

theorem if_lt_sub_one_getElem? (l : List Chapter) (i : Nat) :
    (if i < l.length - 1 then l[i + 1]? else none) = l[i + 1]? := by
  split
  · rfl
  · exact (List.getElem?_eq_none (by omega)).symm

theorem prefetchNextChapters_get_of_not_inserted (net : Net) (ch : Chapter) (m : Cache)
    (k : String) (h : k ∉ (prefetchNextChapters net ch m).insertedKeys) :
    mapGet (prefetchNextChapters net ch m).cache k = mapGet m k := by
  by_cases hn : ch.novelId = 0
  · simp only [prefetchNextChapters, hn, if_pos]
  · cases hl : net.chapterList ch.novelId with
    | error e => simp only [prefetchNextChapters, hn, hl, if_neg, ite_false]
    | ok chapters =>
      cases hi : chapters.findIdx? (fun c => c.id == ch.id) with
      | none => simp only [prefetchNextChapters, hn, hl, hi, if_neg, ite_false]
      | some currentIndex =>
        simp only [prefetchNextChapters, hn, hl, hi, if_neg, ite_false] at h ⊢
        exact prefetchFold_get_of_not_inserted net _ m k h

theorem prefetchNextChapters_has_imp (net : Net) (ch : Chapter) (m : Cache) (k : String)
    (h : mapHas (prefetchNextChapters net ch m).cache k = true) :
    mapHas m k = true ∨ ∃ s, k = "id:" ++ s := by
  by_cases hn : ch.novelId = 0
  · simp only [prefetchNextChapters, hn, if_pos] at h
    exact Or.inl h
  · cases hl : net.chapterList ch.novelId with
    | error e =>
      simp only [prefetchNextChapters, hn, hl, if_neg, ite_false] at h
      exact Or.inl h
    | ok chapters =>
      cases hi : chapters.findIdx? (fun c => c.id == ch.id) with
      | none =>
        simp only [prefetchNextChapters, hn, hl, hi, if_neg, ite_false] at h
        exact Or.inl h
      | some currentIndex =>
        simp only [prefetchNextChapters, hn, hl, hi, if_neg, ite_false] at h
        exact prefetchFold_has_imp net _ m k h

theorem fetchChapter_miss_mainRequests (net : Net) (r : Route) (m : Cache)
    (req : FetchRequest) (hreq : requestOf r = some req)
    (hmiss : mapGet m (cacheKeyOfReq req) = none) :
    (fetchChapter net r m).mainRequests = [req] := by
  simp only [fetchChapter, hreq, hmiss]
  cases hf : net.chapterFetch req <;> rfl

theorem fetchChapter_cache_has_imp (net : Net) (r : Route) (m : Cache) (k : String)
    (h : mapHas (fetchChapter net r m).cache k = true) :
    mapHas m k = true ∨ ∃ s, k = "id:" ++ s := by
  cases hreq : requestOf r with
  | none =>
    simp only [fetchChapter, hreq] at h
    exact Or.inl h
  | some req =>
    simp only [fetchChapter, hreq] at h
    cases hget : mapGet m (cacheKeyOfReq req) with
    | some cached =>
      rw [hget] at h
      have h0 : mapHas (prefetchNextChapters net cached
          (mapDelete m (cacheKeyOfReq req))).cache k = true := h
      rcases prefetchNextChapters_has_imp net cached _ k h0 with h1 | h2
      · exact Or.inl (mapHas_mapDelete h1)
      · exact Or.inr h2
    | none =>
      rw [hget] at h
      cases hf : net.chapterFetch req with
      | error e =>
        rw [hf] at h
        exact Or.inl h
      | ok data =>
        rw [hf] at h
        have h0 : mapHas (prefetchNextChapters net data m).cache k = true := h
        exact prefetchNextChapters_has_imp net data m k h0

/-- The prefetch-cache states reachable in a Reader session: the cache
starts empty (`useRef(new Map())`) and is only ever replaced by the cache
a `fetchChapter` run leaves behind. -/
inductive ReachableCache : Cache → Prop where
  | init : ReachableCache []
  | step (net : Net) (r : Route) (m : Cache) :
      ReachableCache m → ReachableCache (fetchChapter net r m).cache

theorem reachable_keys_id {m : Cache} (hm : ReachableCache m) :
    ∀ k, mapHas m k = true → ∃ s, k = "id:" ++ s := by
  induction hm with
  | init =>
    intro k hk
    simp [mapHas, mapGet] at hk
  | step net r m _ ih =>
    intro k hk
    rcases fetchChapter_cache_has_imp net r m k hk with h1 | h2
    · exact ih k h1
    · exact h2

/-! ## Claim theorems -/

/-- C6: a left-arrow or right-arrow key event (indeed, any key event) whose
target is an input element or a textarea element triggers no action at all
— in particular no navigation — regardless of whether
`prevChapter` / `nextChapter` are populated. -/
theorem keyboard_guard_no_navigation (navInfo : ChapterNavInfo) (key : String) :
    handleKeyDown navInfo .inputEl key = .noAction ∧
      handleKeyDown navInfo .textareaEl key = .noAction := by
  constructor <;> · rw [handleKeyDown]; simp

/-- C8: writing an integer percentage P (0-100) to the persistence store
under key K as an integer string and reading K back through the restore
path yields P unchanged. -/
theorem position_round_trip (store : Store) (K : String) (P : Nat) (_hP : P ≤ 100) :
    readBackPercent (lsSet store K (natToString P)) K = some (P : Int) := by
  rw [readBackPercent]
  simp only [lsGet_lsSet_self, natToString_not_empty]
  simp only [Bool.false_eq_true, if_false]
  exact parseIntJs_natToString P

/-- Witness for C8 at P = 37. -/
theorem position_round_trip_witness :
    (37 : Nat) ≤ 100 ∧
      readBackPercent (lsSet [] "reading_position_42" (natToString 37))
        "reading_position_42" = some (37 : Int) :=
  ⟨by decide, position_round_trip [] "reading_position_42" 37 (by decide)⟩

/-- C4: over any sequence of scroll events on the same chapter, the
persisted write times are at least 1000 ms apart, so at most one store
write falls inside any 1000 ms wall-clock window. -/
theorem scroll_write_throttle (chapterId qChapterPath : Option String)
    (evs : List ScrollEvent) (st : ScrollState) :
    (processScroll chapterId qChapterPath evs st).2.Pairwise
        (fun a b => a + 1000 ≤ b) ∧
      ∀ t, ((processScroll chapterId qChapterPath evs st).2.filter
          (fun w => decide (t ≤ w) && decide (w < t + 1000))).length ≤ 1 := by
  obtain ⟨hp, _⟩ := processScroll_writes chapterId qChapterPath evs st
  exact ⟨hp, fun t => pairwise_sep_filter_window _ hp t⟩


theorem jsIsNaN_iff (x : JsNum) : jsIsNaN x = true ↔ x = .nan := by
  cases x <;> simp [jsIsNaN]

/-- A backend oracle that rejects everything with an empty error object. -/
def emptyNet : Net :=
  { chapterFetch := fun _ => .error {}, chapterList := fun _ => .error {} }

/-- An id-addressed route (`/novel/7/chapter/42`). -/
def routeId42 : Route := { novelId := some "7", chapterId := some "42" }

/-- C2 counterexample: for the locator that carries neither a chapter id nor
a pluginId+chapterPath pair, the rendered error view DOES carry a retry
target (the error branch always renders the Retry button), contradicting
the claim that the missing-locator error is shown with no retry target. -/
theorem missing_locator_counterexample :
    retryTargetOf (viewAfterLoad (fetchChapter emptyNet {} [])) ≠ none := by
  decide

/-- C2 (amended): a locator with neither a chapter id nor a complete
pluginId+chapterPath pair fails immediately with the message
"Missing chapter information", issues no network call and no history post,
leaves the cache untouched, and is rendered as an error WITH the standard
retry control, whose activation re-runs the same resolve-and-load and fails
identically. -/
theorem missing_locator_behavior (net : Net) (r : Route) (cache : Cache)
    (h : requestOf r = none) :
    (fetchChapter net r cache).result = .missingLocator ∧
      (fetchChapter net r cache).mainRequests = [] ∧
      (fetchChapter net r cache).prefetchRequests = [] ∧
      (fetchChapter net r cache).historyPosts = [] ∧
      (fetchChapter net r cache).cache = cache ∧
      viewAfterLoad (fetchChapter net r cache) =
        .errorView "Missing chapter information" (some .refetch) ∧
      fetchChapter net r (fetchChapter net r cache).cache = fetchChapter net r cache := by
  have hout : fetchChapter net r cache =
      { result := .missingLocator, cache := cache, mainRequests := [],
        prefetchRequests := [], insertedKeys := [], historyPosts := [],
        navInfo := none } := by
    simp only [fetchChapter, h]
  rw [hout]
  exact ⟨rfl, rfl, rfl, rfl, rfl, rfl, hout⟩

/-- Witness for C2 (amended) on the all-empty route. -/
theorem missing_locator_behavior_witness :
    requestOf ({} : Route) = none ∧
      (fetchChapter emptyNet {} []).result = .missingLocator ∧
      (fetchChapter emptyNet {} []).mainRequests = [] :=
  ⟨rfl, (missing_locator_behavior emptyNet {} [] rfl).1,
    (missing_locator_behavior emptyNet {} [] rfl).2.1⟩

/-- A backend oracle whose content fetch rejects with an error carrying no
backend message, only the axios-level message "Network Error". -/
def netNetworkError : Net :=
  { chapterFetch := fun _ => .error { message := some "Network Error" },
    chapterList := fun _ => .error {} }

/-- C5 counterexample: when the rejection carries no backend message, the
surfaced message is the error object message "Network Error", not the
generic fallback string "Failed to load chapter" the claim prescribes for
that case. -/
theorem backend_fallback_counterexample :
    (fetchChapter netNetworkError routeId42 []).result = .failed "Network Error" ∧
      "Network Error" ≠ "Failed to load chapter" := by
  constructor <;> decide

/-- C5 (amended): on a rejected content fetch the controller surfaces
`e.response.data.message` when truthy, else `e.message` when truthy, else
the generic fallback "Failed to load chapter"; the cache is unchanged and
the view's retry control re-runs the same resolve-and-load with the same
locator, which is the identical operation. -/
theorem chapter_load_failed_behavior (net : Net) (r : Route) (cache : Cache)
    (req : FetchRequest) (e : AxiosError)
    (hreq : requestOf r = some req)
    (hmiss : mapGet cache (cacheKeyOfReq req) = none)
    (herr : net.chapterFetch req = .error e) :
    (fetchChapter net r cache).result = .failed (displayedError e) ∧
      (fetchChapter net r cache).mainRequests = [req] ∧
      (fetchChapter net r cache).cache = cache ∧
      viewAfterLoad (fetchChapter net r cache) =
        .errorView (displayedError e) (some .refetch) ∧
      (∀ s, e.backendMessage = some s → s.isEmpty = false → displayedError e = s) ∧
      (jsTruthy e.backendMessage = false →
        ∀ s, e.message = some s → s.isEmpty = false → displayedError e = s) ∧
      (jsTruthy e.backendMessage = false → jsTruthy e.message = false →
        displayedError e = "Failed to load chapter") ∧
      fetchChapter net r (fetchChapter net r cache).cache = fetchChapter net r cache := by
  have hout : fetchChapter net r cache =
      { result := .failed (displayedError e), cache := cache, mainRequests := [req],
        prefetchRequests := [], insertedKeys := [], historyPosts := [],
        navInfo := none } := by
    simp only [fetchChapter, hreq, hmiss, herr]
  rw [hout]
  refine ⟨rfl, rfl, rfl, rfl, ?_, ?_, ?_, hout⟩
  · intro s hs hse
    simp [displayedError, hs, jsOrD, hse]
  · intro hb s hs hse
    rw [displayedError, jsOrD_falsy hb]
    simp [jsOrD, hs, hse]
  · intro hb hm
    rw [displayedError, jsOrD_falsy hb, jsOrD_falsy hm]

/-- Witness for C5 (amended): the "Network Error" rejection scenario. -/
theorem chapter_load_failed_behavior_witness :
    (fetchChapter netNetworkError routeId42 []).mainRequests = [FetchRequest.byId "42"] ∧
      (fetchChapter netNetworkError routeId42 []).cache = [] :=
  ⟨(chapter_load_failed_behavior netNetworkError routeId42 [] (.byId "42")
      { message := some "Network Error" } (by decide) rfl rfl).2.1,
    (chapter_load_failed_behavior netNetworkError routeId42 [] (.byId "42")
      { message := some "Network Error" } (by decide) rfl rfl).2.2.1⟩

theorem handleScroll_skip_eq (chapterId qChapterPath : Option String) (ev : ScrollEvent)
    (st : ScrollState) (hth : ¬ ev.time - st.lastScrollSave < 1000)
    (hn : jsIsNaN (jsDiv ev.scrollY (ev.scrollHeight - ev.innerHeight)) = true) :
    handleScroll chapterId qChapterPath ev st =
      ({ lastScrollSave := ev.time, store := st.store }, none) := by
  simp only [handleScroll]
  rw [if_neg hth, if_neg (by simp [hn])]

theorem handleScroll_write_eq (chapterId qChapterPath : Option String) (ev : ScrollEvent)
    (st : ScrollState) (hth : ¬ ev.time - st.lastScrollSave < 1000)
    (hn : jsIsNaN (jsDiv ev.scrollY (ev.scrollHeight - ev.innerHeight)) = false) :
    handleScroll chapterId qChapterPath ev st =
      ({ lastScrollSave := ev.time,
         store := lsSet st.store (scrollSaveKey chapterId qChapterPath)
           (jsRoundedString (mathRound
             (jsMulNat (jsDiv ev.scrollY (ev.scrollHeight - ev.innerHeight)) 100))) },
       some ev.time) := by
  simp only [handleScroll]
  rw [if_neg hth, if_pos (by simp [getPositionKey_not_empty, hn])]
  rfl

/-- A scroll event with positive offset while the document is exactly as
tall as the viewport: the computed percentage is `Infinity`. -/
def infEvent : ScrollEvent :=
  { time := 2000, scrollY := 5, scrollHeight := 100, innerHeight := 100 }

/-- C7 counterexample: at `infEvent` the computed percentage is not a
finite number, yet the handler performs a store write (of the string
"Infinity") instead of skipping it — the code only skips on `NaN`. -/
theorem scroll_infinity_write_counterexample :
    jsIsFinite (jsDiv infEvent.scrollY (infEvent.scrollHeight - infEvent.innerHeight))
        = false ∧
      (handleScroll (some "9") none infEvent { lastScrollSave := 0, store := [] }).2 =
        some 2000 ∧
      lsGet (handleScroll (some "9") none infEvent
          { lastScrollSave := 0, store := [] }).1.store "reading_position_9" =
        some "Infinity" := by
  have hy : infEvent.scrollHeight - infEvent.innerHeight = 0 := by
    norm_num [infEvent]
  have hdiv : jsDiv infEvent.scrollY (infEvent.scrollHeight - infEvent.innerHeight) =
      .posInf := by
    rw [jsDiv, if_pos hy, if_neg (by norm_num [infEvent]), if_pos (by norm_num [infEvent])]
  have hw := handleScroll_write_eq (some "9") none infEvent
      { lastScrollSave := 0, store := [] } (by decide) (by rw [hdiv]; rfl)
  refine ⟨by rw [hdiv]; rfl, by rw [hw]; rfl, ?_⟩
  rw [hw, hdiv]
  decide

/-- C7 (amended): for a scroll event that passes the throttle, the store
write is skipped iff the computed percentage is `NaN`, which happens exactly
when the scroll offset is 0 and the document height equals the viewport
height; in every other case (including an `Infinity` percentage) the
rounded percentage string is written under the position key. -/
theorem scroll_skip_iff_nan (chapterId qChapterPath : Option String)
    (ev : ScrollEvent) (st : ScrollState)
    (hth : ¬ ev.time - st.lastScrollSave < 1000) :
    ((handleScroll chapterId qChapterPath ev st).2 = none ↔
        jsDiv ev.scrollY (ev.scrollHeight - ev.innerHeight) = .nan) ∧
      (jsDiv ev.scrollY (ev.scrollHeight - ev.innerHeight) = .nan ↔
        (ev.scrollY = 0 ∧ ev.scrollHeight - ev.innerHeight = 0)) ∧
      (jsDiv ev.scrollY (ev.scrollHeight - ev.innerHeight) ≠ .nan →
        lsGet (handleScroll chapterId qChapterPath ev st).1.store
            (scrollSaveKey chapterId qChapterPath) =
          some (jsRoundedString (mathRound
            (jsMulNat (jsDiv ev.scrollY (ev.scrollHeight - ev.innerHeight)) 100)))) := by
  refine ⟨?_, ?_, ?_⟩
  · cases hn : jsIsNaN (jsDiv ev.scrollY (ev.scrollHeight - ev.innerHeight)) with
    | true =>
      rw [handleScroll_skip_eq chapterId qChapterPath ev st hth hn]
      simp [(jsIsNaN_iff _).mp hn]
    | false =>
      rw [handleScroll_write_eq chapterId qChapterPath ev st hth hn]
      constructor
      · intro hc
        exact absurd hc (by simp)
      · intro hc
        rw [hc] at hn
        simp [jsIsNaN] at hn
  · rw [jsDiv]
    by_cases hy : ev.scrollHeight - ev.innerHeight = 0
    · rw [if_pos hy]
      by_cases hx : ev.scrollY = 0
      · simp [hx, hy]
      · rw [if_neg hx]
        split <;> simp [hx, hy]
    · rw [if_neg hy]
      simp [hy]
  · intro hne
    have hn : jsIsNaN (jsDiv ev.scrollY (ev.scrollHeight - ev.innerHeight)) = false := by
      cases hn : jsIsNaN (jsDiv ev.scrollY (ev.scrollHeight - ev.innerHeight)) with
      | true => exact absurd ((jsIsNaN_iff _).mp hn) hne
      | false => rfl
    rw [handleScroll_write_eq chapterId qChapterPath ev st hth hn]
    exact lsGet_lsSet_self st.store _ _

/-- A scroll event for the witness: 30 px offset over a 100 px scrollable
range at t = 1500 ms. -/
def evW : ScrollEvent := { time := 1500, scrollY := 30, scrollHeight := 200, innerHeight := 100 }

/-- Witness for C7 (amended): the event passes the throttle, the percentage
is finite, and "30" is written under the position key. -/
theorem scroll_skip_iff_nan_witness :
    ¬ ((1500 : Nat) - 0 < 1000) ∧
      lsGet (handleScroll (some "9") none evW
          { lastScrollSave := 0, store := [] }).1.store
        (scrollSaveKey (some "9") none) = some "30" := by
  have hyne : ¬ evW.scrollHeight - evW.innerHeight = 0 := by norm_num [evW]
  have hdiv : jsDiv evW.scrollY (evW.scrollHeight - evW.innerHeight) =
      .finite (evW.scrollY / (evW.scrollHeight - evW.innerHeight)) := by
    rw [jsDiv, if_neg hyne]
  have hne : jsDiv evW.scrollY (evW.scrollHeight - evW.innerHeight) ≠ .nan := by
    rw [hdiv]
    intro hc
    exact JsNum.noConfusion hc
  have hq : evW.scrollY / (evW.scrollHeight - evW.innerHeight) * ((100 : ℕ) : ℚ) = 30 := by
    norm_num [evW]
  have hval : jsRoundedString (mathRound
      (jsMulNat (jsDiv evW.scrollY (evW.scrollHeight - evW.innerHeight)) 100)) = "30" := by
    rw [hdiv, jsMulNat, hq, mathRound]
    have hr : round (30 : ℚ) = 30 := by norm_num
    rw [hr]
    decide
  refine ⟨by decide, ?_⟩
  have h := (scroll_skip_iff_nan (some "9") none evW { lastScrollSave := 0, store := [] }
      (by decide)).2.2 hne
  rw [h, hval]

/-- A chapter whose `path` string happens to be the decimal string of its
numeric id. -/
def chapPath42 : Chapter := { id := 42, name := "c", path := "42" }

/-- C9 counterexample: for a path-addressed chapter whose path is "42" and
whose fetched data carries the truthy numeric id 42, the save key and the
restore key COINCIDE, contradicting the universal "saved under one key and
restored from a different key". -/
theorem position_key_collision_counterexample :
    chapPath42.id ≠ 0 ∧
      scrollSaveKey none (some "42") = scrollRestoreKey chapPath42 (some "42") := by
  refine ⟨by decide, ?_⟩
  decide

/-- C9 (amended): the save key is derived from the route parameters
(chapterId falling back to chapterPath) while the restore key is derived
from the fetched chapter's truthy numeric id; for a path-addressed chapter
they differ PROVIDED the chapter path is not the decimal string of the id. -/
theorem position_key_mismatch (chapterId qChapterPath : Option String)
    (chapter : Chapter) (p : String)
    (hcid : jsTruthy chapterId = false)
    (hpath : qChapterPath = some p) (hp : p.isEmpty = false)
    (hid : chapter.id ≠ 0) (hne : p ≠ natToString chapter.id) :
    scrollSaveKey chapterId qChapterPath = getPositionKey p ∧
      scrollRestoreKey chapter qChapterPath = getPositionKey (natToString chapter.id) ∧
      scrollSaveKey chapterId qChapterPath ≠ scrollRestoreKey chapter qChapterPath := by
  have h1 : scrollSaveKey chapterId qChapterPath = getPositionKey p := by
    rw [scrollSaveKey, jsOrD_falsy hcid, hpath]
    simp [jsOrD, hp]
  have h2 : scrollRestoreKey chapter qChapterPath = getPositionKey (natToString chapter.id) := by
    rw [scrollRestoreKey, if_pos hid]
  refine ⟨h1, h2, ?_⟩
  rw [h1, h2]
  exact getPositionKey_ne_of_ne hne

/-- A chapter whose path differs from the decimal string of its id. -/
def chapW43 : Chapter := { id := 43, name := "c", path := "/c/1" }

/-- Witness for C9 (amended): for path "/c/1" and id 43 the keys differ. -/
theorem position_key_mismatch_witness :
    scrollSaveKey none (some "/c/1") ≠ scrollRestoreKey chapW43 (some "/c/1") :=
  (position_key_mismatch none (some "/c/1") chapW43 "/c/1" rfl rfl (by decide)
    (by decide) (by decide)).2.2

/-- C1: when the computed cache key is present in the prefetch cache, the
controller displays the cached chapter, issues no content fetch for it,
and removes the entry; provided the prefetch triggered by this very load
does not re-insert the same key (the claim's "no intervening prefetch of
it"), the entry is absent afterwards and a subsequent resolve-and-load for
the same locator issues a fresh network fetch. -/
theorem cache_hit_single_use (net : Net) (r : Route) (cache : Cache)
    (req : FetchRequest) (c : Chapter)
    (hreq : requestOf r = some req)
    (hhit : mapGet cache (cacheKeyOfReq req) = some c)
    (hnopre : cacheKeyOfReq req ∉
      (prefetchNextChapters net c (mapDelete cache (cacheKeyOfReq req))).insertedKeys) :
    (fetchChapter net r cache).result = .loaded c true ∧
      (fetchChapter net r cache).mainRequests = [] ∧
      mapGet (fetchChapter net r cache).cache (cacheKeyOfReq req) = none ∧
      (fetchChapter net r (fetchChapter net r cache).cache).mainRequests = [req] := by
  have hcache : (fetchChapter net r cache).cache =
      (prefetchNextChapters net c (mapDelete cache (cacheKeyOfReq req))).cache := by
    simp only [fetchChapter, hreq, hhit]
  have hres : (fetchChapter net r cache).result = .loaded c true := by
    simp only [fetchChapter, hreq, hhit]
  have hmain : (fetchChapter net r cache).mainRequests = [] := by
    simp only [fetchChapter, hreq, hhit]
  have hnone : mapGet (fetchChapter net r cache).cache (cacheKeyOfReq req) = none := by
    rw [hcache, prefetchNextChapters_get_of_not_inserted net c _ _ hnopre,
      mapGet_mapDelete_self]
  exact ⟨hres, hmain, hnone, fetchChapter_miss_mainRequests net r _ req hreq hnone⟩

/-- A cached chapter with no `novelId`, so the post-hit prefetch is a
no-op. -/
def chapNoNovel : Chapter := { id := 42, name := "c42", path := "/c/42" }

/-- Witness for C1: cache hit on `id:42`, then a fresh fetch on retry. -/
theorem cache_hit_single_use_witness :
    (fetchChapter emptyNet routeId42 [("id:42", chapNoNovel)]).result =
        .loaded chapNoNovel true ∧
      (fetchChapter emptyNet routeId42 [("id:42", chapNoNovel)]).mainRequests = [] ∧
      (fetchChapter emptyNet routeId42
          (fetchChapter emptyNet routeId42 [("id:42", chapNoNovel)]).cache).mainRequests =
        [FetchRequest.byId "42"] := by
  have h := cache_hit_single_use emptyNet routeId42 [("id:42", chapNoNovel)]
      (.byId "42") chapNoNovel (by decide) (by decide) (by decide)
  exact ⟨h.1, h.2.1, h.2.2.2⟩

/-- C10: in every reachable prefetch-cache state all keys have the id form
`id:<chapterId>`, so a path-addressed resolve-and-load (key
`path:<pluginId>:<chapterPath>`) never hits the cache and always issues the
network fetch; and with no truthy route `novelId`, `navigateToChapter`
only ever produces a path-based route. -/
theorem path_mode_never_cached (m : Cache) (hm : ReachableCache m) :
    (∀ k, mapHas m k = true → ∃ s, k = "id:" ++ s) ∧
      (∀ (net : Net) (r : Route) (pl cp : String),
        requestOf r = some (.byPath pl cp) →
          mapGet m (cacheKeyOfReq (.byPath pl cp)) = none ∧
          (fetchChapter net r m).mainRequests = [.byPath pl cp]) ∧
      (∀ (r : Route) (t : Chapter) (nt : NavTarget),
        jsTruthy r.novelId = false → navigateToChapter r t = some nt →
          ∃ pl np cp, nt = .pathRoute pl np cp) := by
  refine ⟨reachable_keys_id hm, ?_, ?_⟩
  · intro net r pl cp hreq
    have hnone : mapGet m (cacheKeyOfReq (.byPath pl cp)) = none := by
      cases hg : mapGet m (cacheKeyOfReq (.byPath pl cp)) with
      | none => rfl
      | some v =>
        exfalso
        have hhas : mapHas m (cacheKeyOfReq (.byPath pl cp)) = true := by
          rw [mapHas, hg]
          rfl
        obtain ⟨s, hs⟩ := reachable_keys_id hm _ hhas
        exact pathKey_ne_idKey pl cp s hs
    exact ⟨hnone, fetchChapter_miss_mainRequests net r m _ hreq hnone⟩
  · intro r t nt hnov hnav
    rw [navigateToChapter] at hnav
    rw [hnov] at hnav
    simp only [Bool.false_and, Bool.false_eq_true, if_false] at hnav
    split at hnav
    · exact ⟨_, _, _, (Option.some.inj hnav).symm⟩
    · simp at hnav

/-- A path-addressed route. -/
def routePathW : Route := { qChapterPath := some "/c/1", qPluginId := some "plug" }

/-- Witness for C10 at the initial (empty) cache and a path route. -/
theorem path_mode_never_cached_witness :
    mapGet ([] : Cache) (cacheKeyOfReq (.byPath "plug" "/c/1")) = none ∧
      (fetchChapter emptyNet routePathW []).mainRequests =
        [FetchRequest.byPath "plug" "/c/1"] := by
  have h := (path_mode_never_cached [] ReachableCache.init).2.1 emptyNet routePathW
      "plug" "/c/1" (by decide)
  exact h


theorem cands_keys_nodup (chapters : List Chapter) (i : Nat)
    (hnd : (chapters.map (fun c => c.id)).Nodup) :
    (((chapters[i + 1]?).toList ++ (chapters[i + 2]?).toList).map
      (fun c => "id:" ++ natToString c.id)).Nodup := by
  cases h1 : chapters[i + 1]? with
  | none => cases h2 : chapters[i + 2]? <;> simp
  | some a =>
    cases h2 : chapters[i + 2]? with
    | none => simp
    | some b =>
      simp only [Option.toList_some, List.singleton_append, List.map_cons, List.map_nil]
      refine List.nodup_cons.mpr ⟨?_, List.nodup_singleton _⟩
      simp only [List.mem_singleton]
      intro hc
      have hab : a.id = b.id := idKey_injective hc
      have hm1 : (chapters.map (fun c => c.id))[i + 1]? = some a.id := by
        rw [List.getElem?_map, h1]
        rfl
      have hm2 : (chapters.map (fun c => c.id))[i + 2]? = some b.id := by
        rw [List.getElem?_map, h2]
        rfl
      have hlen : i + 1 < (chapters.map (fun c => c.id)).length := by
        rw [List.length_map]
        exact (List.getElem?_eq_some.mp h1).1
      have : i + 1 = i + 2 :=
        List.getElem?_inj hlen hnd (by rw [hm1, hm2, hab])
      omega

/-- C3: for a loaded chapter carrying a `novelId`, with the novel chapter
list fetched and the current chapter found at index i (ids pairwise
distinct, prefetch fetches succeeding), `prevChapter` is the element at
i-1 when i > 0 and absent otherwise, `nextChapter` is the element at i+1
when i < length-1 and absent otherwise, and the prefetch loop requests and
inserts exactly the existing elements at i+1 and i+2 whose cache key
`id:<id>` is not already present, leaving every other cache key
untouched. -/
theorem prefetch_next_two (net : Net) (current : Chapter) (cache : Cache)
    (chapters : List Chapter) (i : Nat) (f : Chapter → Chapter)
    (hnov : current.novelId ≠ 0)
    (hlist : net.chapterList current.novelId = .ok chapters)
    (hfind : chapters.findIdx? (fun c => c.id == current.id) = some i)
    (hnd : (chapters.map (fun c => c.id)).Nodup)
    (hok : ∀ c ∈ (chapters[i + 1]?).toList ++ (chapters[i + 2]?).toList,
      net.chapterFetch (.byId (natToString c.id)) = .ok (f c)) :
    (prefetchNextChapters net current cache).navInfo =
        some { prevChapter := if 0 < i then chapters[i - 1]? else none,
               nextChapter := if i < chapters.length - 1 then chapters[i + 1]? else none } ∧
      (prefetchNextChapters net current cache).requests =
        (((chapters[i + 1]?).toList ++ (chapters[i + 2]?).toList).filter
            (fun c => !mapHas cache ("id:" ++ natToString c.id))).map
          (fun c => FetchRequest.byId (natToString c.id)) ∧
      (∀ c ∈ ((chapters[i + 1]?).toList ++ (chapters[i + 2]?).toList).filter
          (fun c => !mapHas cache ("id:" ++ natToString c.id)),
        mapGet (prefetchNextChapters net current cache).cache
          ("id:" ++ natToString c.id) = some (f c)) ∧
      (∀ k, k ∉ (((chapters[i + 1]?).toList ++ (chapters[i + 2]?).toList).filter
            (fun c => !mapHas cache ("id:" ++ natToString c.id))).map
            (fun c => "id:" ++ natToString c.id) →
        mapGet (prefetchNextChapters net current cache).cache k = mapGet cache k) := by
  have hpf : prefetchNextChapters net current cache =
      ⟨some { prevChapter := if 0 < i then chapters[i - 1]? else none,
              nextChapter := chapters[i + 1]? },
        (prefetchFold net ((chapters[i + 1]?).toList ++ (chapters[i + 2]?).toList) cache).1,
        (prefetchFold net ((chapters[i + 1]?).toList ++ (chapters[i + 2]?).toList) cache).2.1,
        (prefetchFold net
          ((chapters[i + 1]?).toList ++ (chapters[i + 2]?).toList) cache).2.2⟩ := by
    simp only [prefetchNextChapters, hnov, hlist, hfind, if_neg, ite_false,
      if_lt_sub_one_getElem?]
    rw [filterMap_id_pair]
  obtain ⟨h1, h2, h3, h4⟩ := prefetchFold_spec net f
      ((chapters[i + 1]?).toList ++ (chapters[i + 2]?).toList) cache
      (cands_keys_nodup chapters i hnd) hok
  rw [hpf]
  exact ⟨by rw [if_lt_sub_one_getElem?], h1, h3, h4⟩

/-- Chapters 41, 42, 43 of novel 7 (the spec scenario). -/
def c41w : Chapter := { id := 41, name := "c41", path := "/c/41", novelId := 7 }

/-- Chapter 42 of novel 7. -/
def c42w : Chapter := { id := 42, name := "c42", path := "/c/42", novelId := 7 }

/-- Chapter 43 of novel 7, with content. -/
def c43w : Chapter :=
  { id := 43, name := "c43", path := "/c/43", novelId := 7, content := some "<p>x</p>" }

/-- A backend oracle serving novel 7 with chapters [41, 42, 43] and
content for chapter 43. -/
def netW3 : Net :=
  { chapterFetch := fun req =>
      match req with
      | .byId s => if s = "43" then .ok c43w else .error {}
      | .byPath _ _ => .error {},
    chapterList := fun n => if n = 7 then .ok [c41w, c42w, c43w] else .error {} }

/-- Witness for C3 at the spec scenario: chapter list [41, 42, 43], current
42: prev is 41, next is 43, and exactly chapter 43 is prefetched. -/
theorem prefetch_next_two_witness :
    (prefetchNextChapters netW3 c42w []).navInfo =
        some { prevChapter := some c41w, nextChapter := some c43w } ∧
      (prefetchNextChapters netW3 c42w []).requests = [FetchRequest.byId "43"] ∧
      mapGet (prefetchNextChapters netW3 c42w []).cache "id:43" = some c43w := by
  have h := prefetch_next_two netW3 c42w [] [c41w, c42w, c43w] 1 (fun _ => c43w)
      (by decide) rfl (by decide) (by decide) (by decide)
  refine ⟨h.1.trans (by decide), h.2.1.trans (by decide), ?_⟩
  have h3 := h.2.2.1 c43w (by decide)
  exact h3

end LightYomi
